import Mathlib

set_option maxRecDepth 40000

/-!
Verification of the PocketLP Trusted Agent Protocol (TAP) signature core.

This file gives a shallow embedding of the TAP signature scheme implemented in
`tap-agent/src/crypto/tapSigner.ts`, the verifier-side helpers in
`tap-agent/src/routes/tapRoutes.ts`, and the JWK/JWKS key registry in
`visa/visaKeyRegistry.ts`, together with theorems settling the specification
claims about them.

Modelling conventions:
* JS strings are Lean `String`s (lists of characters); byte buffers
  (`Uint8Array`, Node `Buffer`) are `List Nat` with entries below 256.
* `Date.now()` is nondeterministic, so `signTAPRequest` takes the computed
  `created` timestamp as an explicit argument.
* Throwing JS code is modelled with `Except String`; a `try/catch` block is a
  `match` on the `Except` value.
* The Ed25519 primitive from `tweetnacl` is modelled as an idealized
  deterministic scheme: a detached signature is a pure 64-byte function of the
  signing key and the message, and verification recomputes it from the public
  key.  The layout of `tweetnacl` keys is kept: a secret key is 64 bytes whose
  last 32 bytes are the public key.  The model captures the correctness
  property (a signature verifies under the matching public key) together with
  the length checks `tweetnacl` performs; unforgeability is not modelled and no
  claim below relies on it.  Messages are signed as strings; UTF-8 encoding is
  injective, so signing the string is equivalent to signing its UTF-8 bytes.
-/

/-! ### Base64 (the `btoa` / `atob` platform primitives)

`tapSigner.ts` uses `btoa` / `atob` and `visaKeyRegistry.ts` uses
`Buffer.toString('base64')`; both are standard base64 with padding.  `atob` is
modelled after the WHATWG forgiving-base64 decode used by Node and browsers.
-/

def b64Alphabet : List Char :=
  ("ABCDEFGHIJKLMNOPQRSTUVWXYZabcdefghijklmnopqrstuvwxyz0123456789+/").data

def b64CharOf (n : Nat) : Char := b64Alphabet.getD n ('A')

def b64ValueOf (c : Char) : Option Nat := b64Alphabet.findIdx? (fun a => a == c)

def b64Val (c : Char) : Nat := (b64ValueOf c).getD 0

/-- Standard base64 encoding of a byte list, with `=` padding (the output of
`btoa` on a binary string, or of `Buffer.toString('base64')`). -/
def b64encodeBytes : List Nat → List Char
  | [] => []
  | [b1] =>
      [b64CharOf (b1 / 4 % 64), b64CharOf (b1 % 4 * 16), '=', '=']
  | [b1, b2] =>
      [b64CharOf (b1 / 4 % 64), b64CharOf ((b1 % 4 * 16 + b2 / 16) % 64),
       b64CharOf (b2 % 16 * 4 % 64), '=']
  | b1 :: b2 :: b3 :: rest =>
      b64CharOf (b1 / 4 % 64) :: b64CharOf ((b1 % 4 * 16 + b2 / 16) % 64) ::
      b64CharOf ((b2 % 16 * 4 + b3 / 64) % 64) :: b64CharOf (b3 % 64) ::
      b64encodeBytes rest

/-- Group-wise base64 decoding (the bit-collection step of forgiving-base64):
full 4-character groups give 3 bytes, a trailing group of 2 or 3 characters
gives 1 or 2 bytes. -/
def decodeGroups : List Char → List Nat
  | c1 :: c2 :: c3 :: c4 :: rest =>
      (b64Val c1 * 4 + b64Val c2 / 16) ::
      (b64Val c2 % 16 * 16 + b64Val c3 / 4) ::
      (b64Val c3 % 4 * 64 + b64Val c4) :: decodeGroups rest
  | [c1, c2] => [b64Val c1 * 4 + b64Val c2 / 16]
  | [c1, c2, c3] =>
      [b64Val c1 * 4 + b64Val c2 / 16, b64Val c2 % 16 * 16 + b64Val c3 / 4]
  | _ => []

/-- ASCII whitespace removed by forgiving-base64 before decoding. -/
def isB64Ws (c : Char) : Bool :=
  c == ' ' || c == Char.ofNat 9 || c == Char.ofNat 10 || c == Char.ofNat 12 ||
  c == Char.ofNat 13

/-- Remove up to two trailing `=` characters. -/
def dropTrailingEq (l : List Char) : List Char :=
  if l.getLast? = some ('=') then
    if l.dropLast.getLast? = some ('=') then l.dropLast.dropLast else l.dropLast
  else l

/-- Model of `atob`: WHATWG forgiving-base64 decode.  Returns the decoded
bytes, or an error for a string that makes `atob` throw
`InvalidCharacterError`. -/
def atobE (s : String) : Except String (List Nat) :=
  let cs := s.data.filter (fun c => !isB64Ws c)
  let cs2 := if cs.length % 4 = 0 then dropTrailingEq cs else cs
  if cs2.length % 4 = 1 then Except.error ("InvalidCharacterError")
  else if cs2.all (fun c => (b64ValueOf c).isSome) then Except.ok (decodeGroups cs2)
  else Except.error ("InvalidCharacterError")

/-! ### The TAPSigner state and its helpers (`tapSigner.ts`) -/

/-- The character mapping of `TAPSigner.base64UrlEncode`: plus becomes hyphen
and slash becomes underscore (the two global `replace` calls). -/
def urlSafeChar (c : Char) : Char :=
  if c = '+' then '-' else if c = '/' then '_' else c

/-- The character mapping of `TAPSigner.base64UrlDecode`: hyphen becomes plus
and underscore becomes slash (the two global `replace` calls). -/
def unUrlChar (c : Char) : Char :=
  if c = '-' then '+' else if c = '_' then '/' else c

/-- `TAPSigner.base64UrlEncode`: `btoa(String.fromCharCode(...data))` with
`+` replaced by `-`, `/` by `_`, and all `=` removed. -/
def TAPSigner.base64UrlEncode (data : List Nat) : String :=
  String.mk (((b64encodeBytes data).map urlSafeChar).filter (fun c => c ≠ ('=')))

/-- `TAPSigner.base64UrlDecode`: restore `+` and `/`, re-append `=` padding to
a multiple of four, and `atob`; decoding errors propagate as exceptions
(`Except.error`), which the caller `verifySignature` catches. -/
def TAPSigner.base64UrlDecodeE (data : String) : Except String (List Nat) :=
  let base64 := data.data.map unUrlChar
  let padding := List.replicate ((4 - base64.length % 4) % 4) ('=')
  atobE (String.mk (base64 ++ padding))

/-! ### Idealized tweetnacl Ed25519 model

See the header: a detached signature is a deterministic 64-byte function of
the public key (the last 32 bytes of the 64-byte secret key) and the message;
verification recomputes it.  The length checks mirror the ones `tweetnacl`
performs before doing any curve arithmetic. -/

/-- Idealized detached Ed25519 signature: 64 bytes determined by the public
key and the message. -/
def idealSig (publicKey : List Nat) (message : String) : List Nat :=
  let h := message.data.foldl (fun a c => a * 131 + c.toNat + 1)
    (publicKey.foldl (fun a b => a * 257 + b + 1) 7)
  (List.range 64).map (fun i => (h + i * (i + 13)) % 256)

/-- A `tweetnacl` signing key pair: `publicKey` has 32 bytes and `secretKey`
has 64 bytes whose last 32 bytes are the public key. -/
structure SignKeyPair where
  publicKey : List Nat
  secretKey : List Nat
deriving DecidableEq

/-- Model of `nacl.sign.detached(message, secretKey)`: the secret key embeds
the public key as its last 32 bytes, and the idealized signature is keyed on
those bytes. -/
def naclSignDetached (message : String) (secretKey : List Nat) : List Nat :=
  idealSig (secretKey.drop 32) message

/-- Model of `nacl.sign.detached.verify(message, sig, publicKey)`, including
the size checks that make `tweetnacl` throw (caught by `verifySignature`). -/
def naclVerifyDetachedE (message : String) (sig : List Nat) (publicKey : List Nat) :
    Except String Bool :=
  if sig.length ≠ 64 then Except.error ("bad signature size")
  else if publicKey.length ≠ 32 then Except.error ("bad public key size")
  else Except.ok (decide (sig = idealSig publicKey message))

/-- Model of `nacl.sign.keyPair.fromSecretKey`: requires 64 bytes and reads
the public key out of the last 32. -/
def naclKeyPairFromSecretKeyE (secretKey : List Nat) : Except String SignKeyPair :=
  if secretKey.length = 64 then Except.ok ⟨secretKey.drop 32, secretKey⟩
  else Except.error ("bad secret key size")

/-! ### Base58 (`bs58`, the `base-x` big-number codec) -/

def b58Alphabet : List Char :=
  ("123456789ABCDEFGHJKLMNPQRSTUVWXYZabcdefghijkmnopqrstuvwxyz").data

/-- Digits (most significant first) of `n` in base 58, as base58 characters.
Structural fuel recursion; callers pass `n + 1`, which is always enough fuel. -/
def natToB58Core : Nat → Nat → List Char → List Char
  | 0, _, acc => acc
  | fuel + 1, n, acc =>
    let d := b58Alphabet.getD (n % 58) ('1')
    if n / 58 = 0 then d :: acc else natToB58Core fuel (n / 58) (d :: acc)

/-- Big-endian byte list read as a natural number. -/
def bytesToNatBE (l : List Nat) : Nat := l.foldl (fun a b => a * 256 + b) 0

/-- Model of `bs58.encode`: one `1` per leading zero byte, then the base-58
digits of the value of the remaining bytes. -/
def bs58encode (bytes : List Nat) : String :=
  let zeros := (bytes.takeWhile (fun b => b == 0)).length
  let v := bytesToNatBE bytes
  String.mk (List.replicate zeros ('1') ++
    (if v = 0 then [] else natToB58Core (v + 1) v []))

def b58ValueOf (c : Char) : Option Nat := b58Alphabet.findIdx? (fun a => a == c)

/-- Minimal big-endian bytes of `n` (empty for zero).  Structural fuel
recursion; callers pass `n + 1`. -/
def natToBytesBECore : Nat → Nat → List Nat → List Nat
  | 0, _, acc => acc
  | fuel + 1, n, acc =>
    if n = 0 then acc else natToBytesBECore fuel (n / 256) (n % 256 :: acc)

def natToBytesBE (n : Nat) : List Nat := natToBytesBECore (n + 1) n []

/-- Model of `bs58.decode`: rejects non-alphabet characters, maps leading `1`
characters to leading zero bytes, and converts the base-58 value of the whole
string to big-endian bytes. -/
def bs58decodeE (s : String) : Except String (List Nat) :=
  if s.data.all (fun c => (b58ValueOf c).isSome) then
    let ones := (s.data.takeWhile (fun c => c == '1')).length
    let v := s.data.foldl (fun a c => a * 58 + (b58ValueOf c).getD 0) 0
    Except.ok (List.replicate ones 0 ++ natToBytesBE v)
  else Except.error ("Non-base58 character")

/-! ### TAPSigner (`tap-agent/src/crypto/tapSigner.ts`) -/

/-- `TAPRequestData` from `shared/types.ts` (the `tag` union type is a
string). -/
structure TAPRequestData where
  authority : String
  path : String
  method : String
  keyId : String
  nonce : String
  tag : String
deriving DecidableEq

/-- `TAPSignature` from `shared/types.ts`: the `Signature-Input` and
`Signature` header values. -/
structure TAPSignature where
  signatureInput : String
  signature : String
deriving DecidableEq

/-- The private state of a `TAPSigner` instance. -/
structure TAPSigner where
  keyPair : SignKeyPair
  keyId : String
deriving DecidableEq

/-- The `TAPSigner` constructor.  `freshPair` models the nondeterministic
result of `nacl.sign.keyPair()` used when no private key is supplied.  JS
truthiness is modelled faithfully: an empty `privateKeyBase58` or an empty
`keyId` string is falsy. -/
def mkTAPSignerE (privateKeyBase58 : Option String) (keyId : Option String)
    (freshPair : SignKeyPair) : Except String TAPSigner :=
  match privateKeyBase58 with
  | some s =>
    if s = ("") then
      Except.ok { keyPair := freshPair, keyId := bs58encode freshPair.publicKey }
    else do
      let privateKey ← bs58decodeE s
      let kp ← naclKeyPairFromSecretKeyE privateKey
      let kid := match keyId with
        | some k => if k = ("") then bs58encode kp.publicKey else k
        | none => bs58encode kp.publicKey
      Except.ok { keyPair := kp, keyId := kid }
  | none =>
    Except.ok { keyPair := freshPair, keyId := bs58encode freshPair.publicKey }

/-- `TAPSigner.getPublicKey`: base58 of the public key bytes. -/
def TAPSigner.getPublicKey (st : TAPSigner) : String := bs58encode st.keyPair.publicKey

/-- `TAPSigner.getKeyId`. -/
def TAPSigner.getKeyId (st : TAPSigner) : String := st.keyId

/-- The `Signature-Input` template literal built inside `signTAPRequest`. -/
def buildSignatureInput (created : Nat) (keyId : String) (expires : Nat)
    (nonce tag : String) : String :=
  ("sig2=(\"@authority\" \"@path\");created=") ++ Nat.repr created ++
  (";keyid=\"") ++ keyId ++ ("\";expires=") ++ Nat.repr expires ++
  (";nonce=\"") ++ nonce ++ ("\";tag=\"") ++ tag ++ ("\"")

/-- `TAPSigner.createSignatureBase`: the canonical signature base, three lines
joined by literal newlines, every field interpolated verbatim. -/
def TAPSigner.createSignatureBase (authority path : String) (created : Nat)
    (keyid : String) (expires : Nat) (nonce tag : String) : String :=
  ("\"@authority\": ") ++ authority ++ ("\n") ++
  ("\"@path\": ") ++ path ++ ("\n") ++
  ("\"@signature-params\": sig2=(\"@authority\" \"@path\");") ++
  ("created=") ++ Nat.repr created ++ (";") ++
  ("keyid=\"") ++ keyid ++ ("\";") ++
  ("expires=") ++ Nat.repr expires ++ (";") ++
  ("nonce=\"") ++ nonce ++ ("\";") ++
  ("tag=\"") ++ tag ++ ("\"")

/-- `TAPSigner.signTAPRequest`.  `created` is the sampled
`Math.floor(Date.now() / 1000)`; `expires` is fixed at `created + 480`. -/
def TAPSigner.signTAPRequest (st : TAPSigner) (requestData : TAPRequestData)
    (created : Nat) : TAPSignature :=
  let expires := created + 480
  let signatureInput :=
    buildSignatureInput created st.keyId expires requestData.nonce requestData.tag
  let signatureBase := TAPSigner.createSignatureBase requestData.authority
    requestData.path created st.keyId expires requestData.nonce requestData.tag
  let signature := naclSignDetached signatureBase st.keyPair.secretKey
  let signatureB64 := TAPSigner.base64UrlEncode signature
  { signatureInput := signatureInput,
    signature := ("sig2=:") ++ signatureB64 ++ (":") }

/-- The body of `TAPSigner.verifySignature` before the `try/catch`: base64url
decoding and `tweetnacl` verification, both of which can throw.  When
`publicKey` is absent (JS `undefined`) the signer falls back to its own public
key. -/
def TAPSigner.verifySignatureE (st : TAPSigner) (signatureBase signature : String)
    (publicKey : Option (List Nat)) : Except String Bool := do
  let sigBytes ← TAPSigner.base64UrlDecodeE signature
  let pubKey := publicKey.getD st.keyPair.publicKey
  naclVerifyDetachedE signatureBase sigBytes pubKey

/-- `TAPSigner.verifySignature`: the `try/catch` around the body absorbs every
exception into `false`. -/
def TAPSigner.verifySignature (st : TAPSigner) (signatureBase signature : String)
    (publicKey : Option (List Nat)) : Bool :=
  match TAPSigner.verifySignatureE st signatureBase signature publicKey with
  | Except.ok b => b
  | Except.error _ => false

/-! ### Verifier route helpers (`tap-agent/src/routes/tapRoutes.ts`) -/

/-- The wrapper stripping done by the `/verify` handler before calling
`verifySignature`: remove one leading `sig2=:` occurrence (anchored regex) and
one trailing `:`. -/
def stripSigWrapper (s : String) : String :=
  let l1 := if s.data.take 6 = ("sig2=:").data then s.data.drop 6 else s.data
  let l2 := if l1.getLast? = some (':') then l1.dropLast else l1
  String.mk l2

/-- A word character for the JS regex class backslash-w. -/
def isWordChar (c : Char) : Bool := c.isAlphanum || c == '_'

/-- Split off the maximal leading run of word characters. -/
def takeWordRun : List Char → List Char × List Char
  | [] => ([], [])
  | c :: cs =>
    if isWordChar c then
      let p := takeWordRun cs
      (c :: p.1, p.2)
    else ([], c :: cs)

/-- Split off the maximal leading run of non-semicolon characters. -/
def takeNonSemi : List Char → List Char × List Char
  | [] => ([], [])
  | c :: cs =>
    if c = ';' then ([], c :: cs)
    else
      let p := takeNonSemi cs
      (c :: p.1, p.2)

/-- Global scan of the regex used by `parseSignatureInput` — word characters,
then a literal equals sign, then non-semicolon characters, both runs greedy
and nonempty — returning successive non-overlapping leftmost matches.  On a
failed attempt the scan advances one position, exactly like the JS regex
engine.  Structural fuel recursion; one unit of fuel is spent per advance, so
`length + 1` fuel always suffices. -/
def jsMatchGo : Nat → List Char → List (List Char)
  | 0, _ => []
  | _ + 1, [] => []
  | fuel + 1, c :: rest =>
    if isWordChar c then
      let wr := takeWordRun rest
      if wr.2.head? = some ('=') then
        let vv := takeNonSemi wr.2.tail
        if vv.1 = [] then jsMatchGo fuel rest
        else (c :: wr.1 ++ '=' :: vv.1) :: jsMatchGo fuel vv.2
      else jsMatchGo fuel rest
    else jsMatchGo fuel rest

/-- All matches of the parameter regex in a string (`String.match` with the
global flag). -/
def jsMatchAll (s : List Char) : List (List Char) := jsMatchGo (s.length + 1) s

/-- Processing of one match inside `parseSignatureInput`: split the match on
every equals sign, keep the first two parts as key and value, and delete all
double quotes from the value. -/
def procMatch (m : List Char) : String × String :=
  (String.mk (m.takeWhile (fun c => c ≠ ('='))),
   String.mk (((((m.dropWhile (fun c => c ≠ ('=')))).tail).takeWhile
     (fun c => c ≠ ('='))).filter (fun c => c ≠ ('"'))))

/-- `parseSignatureInput`: the resulting JS object is an association list in
match order; a later assignment to the same key overwrites an earlier one. -/
def parseSignatureInput (signatureInput : String) : List (String × String) :=
  (jsMatchAll signatureInput.data).map procMatch

/-- Reading `params[key]` from the parsed object: the last assignment wins,
and a missing key is `undefined`, which a template literal renders as the
string `undefined`. -/
def getParam (params : List (String × String)) (key : String) : String :=
  (params.foldl (fun acc p => if p.1 == key then some p.2 else acc) none).getD
    ("undefined")

/-- The route-level `createSignatureBase` helper: rebuilds the canonical base
from the caller-supplied authority and path and the parsed parameters, always
emitting the fields in the fixed template order. -/
def routeCreateSignatureBase (authority path : String)
    (params : List (String × String)) : String :=
  ("\"@authority\": ") ++ authority ++ ("\n") ++
  ("\"@path\": ") ++ path ++ ("\n") ++
  ("\"@signature-params\": sig2=(\"@authority\" \"@path\");") ++
  ("created=") ++ getParam params ("created") ++ (";") ++
  ("keyid=\"") ++ getParam params ("keyid") ++ ("\";") ++
  ("expires=") ++ getParam params ("expires") ++ (";") ++
  ("nonce=\"") ++ getParam params ("nonce") ++ ("\";") ++
  ("tag=\"") ++ getParam params ("tag") ++ ("\"")

/-- The cryptographic part of the `/verify` handler: parse the received
`Signature-Input`, rebuild the base, strip the `sig2=:` wrapper off the
signature, and call `verifySignature` with the supplied public-key bytes. -/
def routeVerify (st : TAPSigner) (signatureInput signature authority path : String)
    (pubKeyBytes : List Nat) : Bool :=
  let params := parseSignatureInput signatureInput
  let signatureBase := routeCreateSignatureBase authority path params
  TAPSigner.verifySignature st signatureBase (stripSigWrapper signature)
    (some pubKeyBytes)

/-! ### Visa key registry (`visa/visaKeyRegistry.ts`) -/

/-- A JWK as produced by `ed25519ToJWK`.  The interface also declares optional
RSA-only fields `n` and `e`; this code path never sets them, so they are
omitted. -/
structure JWK where
  kty : String
  kid : String
  use : String
  alg : String
  crv : String
  x : String
deriving DecidableEq

/-- `VisaKeyRegistry.base64urlEncode`: `Buffer.toString('base64')` with the
same three replacements as `TAPSigner.base64UrlEncode`. -/
def VisaKeyRegistry.base64urlEncode (bytes : List Nat) : String :=
  String.mk (((b64encodeBytes bytes).map urlSafeChar).filter (fun c => c ≠ ('=')))

/-- `VisaKeyRegistry.ed25519ToJWK`: decode the base58 public key (which can
throw, modelled as `Except.error`) and build the fixed-field JWK.  No length
check is performed. -/
def VisaKeyRegistry.ed25519ToJWKE (publicKeyBase58 : String) (keyId : String) :
    Except String JWK := do
  let publicKeyBytes ← bs58decodeE publicKeyBase58
  let x := VisaKeyRegistry.base64urlEncode publicKeyBytes
  Except.ok ⟨("OKP"), keyId, ("sig"), ("EdDSA"), ("Ed25519"), x⟩

/-- JS `Map.set` on an insertion-ordered association list: an existing key is
updated in place, a new key is appended at the end. -/
def mapSet (m : List (String × JWK)) (k : String) (v : JWK) : List (String × JWK) :=
  if m.any (fun p => p.1 == k) then
    m.map (fun p => if p.1 == k then (k, v) else p)
  else m ++ [(k, v)]

/-- The mutable state of a `VisaKeyRegistry`: the current signer and the
`registeredKeys` map in insertion order. -/
structure RegistryState where
  signer : TAPSigner
  registeredKeys : List (String × JWK)
deriving DecidableEq

/-- `VisaKeyRegistry.getJWKS`: insert the current key into `registeredKeys`
(mutating the registry) and return all values in map order.  Network calls are
not involved; the only failure mode is `ed25519ToJWK` throwing. -/
def getJWKS (st : RegistryState) : Except String (RegistryState × List JWK) := do
  let publicKey := TAPSigner.getPublicKey st.signer
  let keyId := TAPSigner.getKeyId st.signer
  let currentJWK ← VisaKeyRegistry.ed25519ToJWKE publicKey keyId
  let m := mapSet st.registeredKeys keyId currentJWK
  Except.ok ({ signer := st.signer, registeredKeys := m }, m.map (fun p => p.2))

/-- `VisaKeyRegistry.rotateKey`: build the new signer's JWK, add it to the
map (the old key is kept for a grace period), and swap the signer.  The
`visaClient.updateAgentKey` network call is external I/O and is elided; its
result does not affect the registry state. -/
def rotateKey (st : RegistryState) (newSigner : TAPSigner) :
    Except String RegistryState := do
  let newJWK ← VisaKeyRegistry.ed25519ToJWKE (TAPSigner.getPublicKey newSigner)
    (TAPSigner.getKeyId newSigner)
  let m := mapSet st.registeredKeys (TAPSigner.getKeyId newSigner) newJWK
  Except.ok { signer := newSigner, registeredKeys := m }

/-! ### Spec-side definitions used for refinement comparisons -/

/-- Canonical signature base exactly as the specification words it: the three
lines of section 4.1 joined by single literal newlines, no trailing newline,
every field inserted verbatim. -/
def specCanonicalize (authority path : String) (created : Nat) (keyId : String)
    (expires : Nat) (nonce tag : String) : String :=
  String.intercalate ("\n")
    [("\"@authority\": ") ++ authority,
     ("\"@path\": ") ++ path,
     ("\"@signature-params\": sig2=(\"@authority\" \"@path\");created=") ++
       Nat.repr created ++ (";keyid=\"") ++ keyId ++ ("\";expires=") ++
       Nat.repr expires ++ (";nonce=\"") ++ nonce ++ ("\";tag=\"") ++ tag ++ ("\"")]

/-- A character of the base64 output core: some `b64CharOf n` with `n < 64`. -/
def GoodB64 (c : Char) : Prop := ∃ n, n < 64 ∧ c = b64CharOf n

/-! ### Concrete fixtures used by witnesses and counterexamples -/

def pairA : SignKeyPair := ⟨(List.range 64).drop 32, List.range 64⟩

def signerA : TAPSigner := { keyPair := pairA, keyId := ("kidA") }

def reqA : TAPRequestData :=
  ⟨("merchant.example"), ("/checkout"), ("GET"), ("kidA"), ("n0nce"),
   ("agent-payer-auth")⟩

def paramsW : List (String × String) :=
  [(("tag"), ("agent-payer-auth")), (("nonce"), ("abc")),
   (("expires"), ("1700000480")), (("keyid"), ("kid1")),
   (("created"), ("1700000000"))]

def signerB : TAPSigner :=
  { keyPair := ⟨((List.range 64).map (fun i => i + 64)).drop 32,
      (List.range 64).map (fun i => i + 64)⟩,
    keyId := ("kidB") }

def regA : RegistryState := { signer := signerA, registeredKeys := [] }

/-- The registry interaction of the C6 counterexample: expose the initial key
via `getJWKS`, rotate to a new signer, call `getJWKS` again, and pair the
returned key sequence with the current signer's JWK. -/
def c6chain : Except String (List JWK × JWK) := do
  let r1 ← getJWKS regA
  let st2 ← rotateKey r1.1 signerB
  let r3 ← getJWKS st2
  let cur ← VisaKeyRegistry.ed25519ToJWKE (TAPSigner.getPublicKey r3.1.signer)
    (TAPSigner.getKeyId r3.1.signer)
  Except.ok (r3.2, cur)

def signerZ : TAPSigner :=
  { keyPair := ⟨List.replicate 32 0, List.replicate 64 0⟩, keyId := ("kidZ") }

def regZ : RegistryState := { signer := signerZ, registeredKeys := [] }

def jwkZ : JWK :=
  ⟨("OKP"), ("kidZ"), ("sig"), ("EdDSA"), ("Ed25519"),
   String.mk (List.replicate 43 ('A'))⟩

/-! ### Generic helper lemmas -/

theorem strData_append (a b : String) : (a ++ b).data = a.data ++ b.data := rfl

theorem strExt {a b : String} (h : a.data = b.data) : a = b := by
  cases a; cases b; exact congrArg String.mk h

theorem strMk_data (s : String) : String.mk s.data = s := rfl

theorem getLast?_memHelper {α : Type} {l : List α} {a : α}
    (h : l.getLast? = some a) : a ∈ l := by
  obtain ⟨hne, heq⟩ := List.mem_getLast?_eq_getLast (show a ∈ l.getLast? from h)
  exact heq ▸ List.getLast_mem hne

theorem takeWhile_all {α : Type} (p : α → Bool) :
    ∀ (l : List α), (∀ a ∈ l, p a = true) → l.takeWhile p = l
  | [], _ => rfl
  | a :: t, h => by
    have ha := h a (by simp)
    simp only [List.takeWhile, ha, List.cons.injEq, true_and]
    exact takeWhile_all p t (fun b hb => h b (by simp [hb]))

theorem takeWhile_append_stop {α : Type} (p : α → Bool) :
    ∀ (w : List α) (c : α) (v : List α), (∀ a ∈ w, p a = true) → p c = false →
      (w ++ c :: v).takeWhile p = w
  | [], c, v, _, hc => by simp [List.takeWhile, hc]
  | a :: t, c, v, hw, hc => by
    have ha := hw a (by simp)
    simp only [List.cons_append, List.takeWhile, ha, List.cons.injEq, true_and]
    exact takeWhile_append_stop p t c v (fun b hb => hw b (by simp [hb])) hc

theorem dropWhile_append_stop {α : Type} (p : α → Bool) :
    ∀ (w : List α) (c : α) (v : List α), (∀ a ∈ w, p a = true) → p c = false →
      (w ++ c :: v).dropWhile p = c :: v
  | [], c, v, _, hc => by simp [List.dropWhile, hc]
  | a :: t, c, v, hw, hc => by
    have ha := hw a (by simp)
    simp only [List.cons_append, List.dropWhile, ha]
    exact dropWhile_append_stop p t c v (fun b hb => hw b (by simp [hb])) hc

/-! ### Decimal rendering: every character of `Nat.repr n` is a digit -/

theorem digitChar_isDigit {n : Nat} (h : n < 10) : (Nat.digitChar n).isDigit = true := by
  interval_cases n <;> decide

theorem toDigitsCore_digits : ∀ (fuel n : Nat) (acc : List Char),
    (∀ c ∈ acc, c.isDigit = true) →
    ∀ c ∈ Nat.toDigitsCore 10 fuel n acc, c.isDigit = true
  | 0, n, acc, hacc => by
    rw [Nat.toDigitsCore.eq_def]
    exact hacc
  | fuel + 1, n, acc, hacc => by
    rw [Nat.toDigitsCore.eq_def]
    dsimp only
    have hd : (Nat.digitChar (n % 10)).isDigit = true :=
      digitChar_isDigit (Nat.mod_lt _ (by omega))
    have hacc2 : ∀ c ∈ Nat.digitChar (n % 10) :: acc, c.isDigit = true := by
      intro c hc
      rcases List.mem_cons.mp hc with rfl | hc
      · exact hd
      · exact hacc c hc
    split
    · exact hacc2
    · exact toDigitsCore_digits fuel (n / 10) _ hacc2

theorem toDigitsCore_ne_nil : ∀ (fuel n : Nat) (acc : List Char),
    fuel ≠ 0 ∨ acc ≠ [] → Nat.toDigitsCore 10 fuel n acc ≠ []
  | 0, n, acc, h => by
    rw [Nat.toDigitsCore.eq_def]
    exact h.resolve_left (by simp)
  | fuel + 1, n, acc, _ => by
    rw [Nat.toDigitsCore.eq_def]
    dsimp only
    split
    · simp
    · exact toDigitsCore_ne_nil fuel (n / 10) _ (Or.inr (by simp))

theorem repr_data (n : Nat) : (Nat.repr n).data = Nat.toDigitsCore 10 (n + 1) n [] := rfl

theorem repr_all_digits (n : Nat) : ∀ c ∈ (Nat.repr n).data, c.isDigit = true := by
  rw [repr_data]
  exact toDigitsCore_digits (n + 1) n [] (by simp)

theorem repr_ne_nil (n : Nat) : (Nat.repr n).data ≠ [] := by
  rw [repr_data]
  exact toDigitsCore_ne_nil (n + 1) n [] (Or.inl (by omega))

theorem isDigit_ne_semi {c : Char} (h : c.isDigit = true) : ¬ c = (';') := by
  rintro rfl; exact absurd h (by decide)

theorem isDigit_ne_eq {c : Char} (h : c.isDigit = true) : ¬ c = ('=') := by
  rintro rfl; exact absurd h (by decide)

theorem isDigit_ne_quote {c : Char} (h : c.isDigit = true) : ¬ c = ('"') := by
  rintro rfl; exact absurd h (by decide)

/-! ### Base64 alphabet facts (finite, checked by `decide`) -/

theorem b64Inv : ∀ n, n < 64 → b64ValueOf (b64CharOf n) = some n := by decide

theorem b64CharOf_ne_eq : ∀ n, n < 64 → ¬ b64CharOf n = ('=') := by decide

theorem b64CharOf_not_ws : ∀ n, n < 64 → isB64Ws (b64CharOf n) = false := by decide

theorem b64CharOf_url : ∀ n, n < 64 → unUrlChar (urlSafeChar (b64CharOf n)) = b64CharOf n := by
  decide

theorem b64CharOf_urlSafe_ne_eq : ∀ n, n < 64 → ¬ urlSafeChar (b64CharOf n) = ('=') := by
  decide


theorem b64Val_charOf {m : Nat} (h : m < 64) : b64Val (b64CharOf m) = m := by
  simp [b64Val, b64Inv m h]

/-- Structure of the base64 encoder output: an alphabet-only core followed by
the padding, with the core decoding back to the input bytes. -/
theorem encode_struct : ∀ (bytes : List Nat), (∀ b ∈ bytes, b < 256) →
    ∃ core : List Char,
      b64encodeBytes bytes =
        core ++ List.replicate ((3 - bytes.length % 3) % 3) ('=') ∧
      (∀ c ∈ core, GoodB64 c) ∧
      decodeGroups core = bytes ∧
      core.length % 4 = (if bytes.length % 3 = 0 then 0 else bytes.length % 3 + 1)
  | [], _ => ⟨[], by simp [b64encodeBytes, decodeGroups]⟩
  | [b1], h => by
    have hb1 : b1 < 256 := h b1 (by simp)
    refine ⟨[b64CharOf (b1 / 4 % 64), b64CharOf (b1 % 4 * 16)], ?_, ?_, ?_, ?_⟩
    · simp [b64encodeBytes, List.replicate]
    · intro c hc
      rcases List.mem_cons.mp hc with rfl | hc
      · exact ⟨b1 / 4 % 64, Nat.mod_lt _ (by omega), rfl⟩
      · rcases List.mem_cons.mp hc with rfl | hc
        · exact ⟨b1 % 4 * 16, by omega, rfl⟩
        · simp at hc
    · have h1 : b1 / 4 % 64 < 64 := Nat.mod_lt _ (by omega)
      have h2 : b1 % 4 * 16 < 64 := by omega
      simp only [decodeGroups, b64Val_charOf h1, b64Val_charOf h2]
      congr 1
      omega
    · simp
  | [b1, b2], h => by
    have hb1 : b1 < 256 := h b1 (by simp)
    have hb2 : b2 < 256 := h b2 (by simp)
    have h1 : b1 / 4 % 64 < 64 := Nat.mod_lt _ (by omega)
    have h2 : (b1 % 4 * 16 + b2 / 16) % 64 < 64 := Nat.mod_lt _ (by omega)
    have h3 : b2 % 16 * 4 % 64 < 64 := Nat.mod_lt _ (by omega)
    refine ⟨[b64CharOf (b1 / 4 % 64), b64CharOf ((b1 % 4 * 16 + b2 / 16) % 64),
      b64CharOf (b2 % 16 * 4 % 64)], ?_, ?_, ?_, ?_⟩
    · simp [b64encodeBytes, List.replicate]
    · intro c hc
      rcases List.mem_cons.mp hc with rfl | hc
      · exact ⟨_, h1, rfl⟩
      · rcases List.mem_cons.mp hc with rfl | hc
        · exact ⟨_, h2, rfl⟩
        · rcases List.mem_cons.mp hc with rfl | hc
          · exact ⟨_, h3, rfl⟩
          · simp at hc
    · simp only [decodeGroups, b64Val_charOf h1, b64Val_charOf h2, b64Val_charOf h3]
      congr 1
      · omega
      · congr 1
        omega
    · simp
  | b1 :: b2 :: b3 :: rest, h => by
    have hb1 : b1 < 256 := h b1 (by simp)
    have hb2 : b2 < 256 := h b2 (by simp)
    have hb3 : b3 < 256 := h b3 (by simp)
    have hrest : ∀ b ∈ rest, b < 256 := fun b hb => h b (by simp [hb])
    obtain ⟨core, henc, hgood, hdec, hlen⟩ := encode_struct rest hrest
    have h1 : b1 / 4 % 64 < 64 := Nat.mod_lt _ (by omega)
    have h2 : (b1 % 4 * 16 + b2 / 16) % 64 < 64 := Nat.mod_lt _ (by omega)
    have h3 : (b2 % 16 * 4 + b3 / 64) % 64 < 64 := Nat.mod_lt _ (by omega)
    have h4 : b3 % 64 < 64 := Nat.mod_lt _ (by omega)
    have hmod3 : (b1 :: b2 :: b3 :: rest).length % 3 = rest.length % 3 := by
      simp [List.length_cons]
      omega
    refine ⟨b64CharOf (b1 / 4 % 64) :: b64CharOf ((b1 % 4 * 16 + b2 / 16) % 64) ::
      b64CharOf ((b2 % 16 * 4 + b3 / 64) % 64) :: b64CharOf (b3 % 64) :: core,
      ?_, ?_, ?_, ?_⟩
    · simp only [b64encodeBytes, henc, hmod3, List.cons_append]
    · intro c hc
      rcases List.mem_cons.mp hc with rfl | hc
      · exact ⟨_, h1, rfl⟩
      · rcases List.mem_cons.mp hc with rfl | hc
        · exact ⟨_, h2, rfl⟩
        · rcases List.mem_cons.mp hc with rfl | hc
          · exact ⟨_, h3, rfl⟩
          · rcases List.mem_cons.mp hc with rfl | hc
            · exact ⟨_, h4, rfl⟩
            · exact hgood c hc
    · simp only [decodeGroups, b64Val_charOf h1, b64Val_charOf h2, b64Val_charOf h3,
        b64Val_charOf h4, hdec]
      congr 1
      · omega
      · congr 1
        · omega
        · congr 1
          omega
    · have h3 : rest.length % 3 = 0 ∨ rest.length % 3 = 1 ∨ rest.length % 3 = 2 := by
        omega
      simp only [List.length_cons]
      have hm : (rest.length + 1 + 1 + 1) % 3 = rest.length % 3 := by omega
      rw [hm]
      rcases h3 with h3 | h3 | h3 <;> simp [h3] at hlen ⊢ <;> omega

theorem dropTrailingEq_no_eq {l : List Char} (hne : ∀ c ∈ l, ¬ c = ('=')) :
    dropTrailingEq l = l := by
  unfold dropTrailingEq
  rw [if_neg]
  intro hc
  exact hne _ (getLast?_memHelper hc) rfl

/-- Evaluation of `atob` on an alphabet core followed by correct padding. -/
theorem atob_of_core (core : List Char) (p : Nat) (hgood : ∀ c ∈ core, GoodB64 c)
    (hp : p ≤ 2) (hmod : (core.length + p) % 4 = 0) :
    atobE (String.mk (core ++ List.replicate p ('='))) = Except.ok (decodeGroups core) := by
  have hcore_ne : ∀ c ∈ core, ¬ c = ('=') := by
    intro c hc
    obtain ⟨n, hn, rfl⟩ := hgood c hc
    exact b64CharOf_ne_eq n hn
  have hfilter : List.filter (fun c => !isB64Ws c) (core ++ List.replicate p ('=')) =
      core ++ List.replicate p ('=') := by
    rw [List.filter_eq_self]
    intro a ha
    rcases List.mem_append.mp ha with ha | ha
    · obtain ⟨n, hn, rfl⟩ := hgood a ha
      simp [b64CharOf_not_ws n hn]
    · rw [List.eq_of_mem_replicate ha]
      decide
  have hdrop : dropTrailingEq (core ++ List.replicate p ('=')) = core := by
    interval_cases p
    · simpa using dropTrailingEq_no_eq hcore_ne
    · show dropTrailingEq (core ++ [('=')]) = core
      unfold dropTrailingEq
      rw [if_pos (List.getLast?_concat core), List.dropLast_concat, if_neg]
      intro hc
      exact hcore_ne _ (getLast?_memHelper hc) rfl
    · show dropTrailingEq (core ++ [('='), ('=')]) = core
      have hsplit : core ++ [('='), ('=')] = (core ++ [('=')]) ++ [('=')] := by
        simp
      unfold dropTrailingEq
      rw [hsplit, if_pos (List.getLast?_concat _), List.dropLast_concat,
        if_pos (List.getLast?_concat _), List.dropLast_concat]
  have hvalid : core.all (fun c => (b64ValueOf c).isSome) = true := by
    rw [List.all_eq_true]
    intro c hc
    obtain ⟨n, hn, rfl⟩ := hgood c hc
    rw [b64Inv n hn]
    rfl
  have hlen14 : ¬ core.length % 4 = 1 := by omega
  have hlen0 : (core ++ List.replicate p ('=')).length % 4 = 0 := by
    rw [List.length_append, List.length_replicate]
    exact hmod
  unfold atobE
  simp only [strMk_data]
  rw [hfilter, if_pos hlen0, hdrop, if_neg hlen14, if_pos hvalid]

/-- Base64url round trip: decoding the url-safe encoding of any byte list
recovers the bytes. -/
theorem b64url_roundtrip (bytes : List Nat) (h : ∀ b ∈ bytes, b < 256) :
    TAPSigner.base64UrlDecodeE (TAPSigner.base64UrlEncode bytes) = Except.ok bytes := by
  obtain ⟨core, henc, hgood, hdec, hlen⟩ := encode_struct bytes h
  have hencdata : (TAPSigner.base64UrlEncode bytes).data = core.map urlSafeChar := by
    show (((b64encodeBytes bytes).map urlSafeChar).filter (fun c => c ≠ ('='))) = _
    rw [henc, List.map_append, List.filter_append, List.map_replicate]
    have h1 : List.filter (fun c => c ≠ ('=')) (core.map urlSafeChar) =
        core.map urlSafeChar := by
      rw [List.filter_eq_self]
      intro a ha
      obtain ⟨c, hc, rfl⟩ := List.mem_map.mp ha
      obtain ⟨n, hn, rfl⟩ := hgood c hc
      simpa using b64CharOf_urlSafe_ne_eq n hn
    have h2 : List.filter (fun c => c ≠ ('='))
        (List.replicate ((3 - bytes.length % 3) % 3) (urlSafeChar ('='))) =
        ([] : List Char) := by
      rw [List.filter_replicate, if_neg]
      decide
    rw [h1, h2, List.append_nil]
  have hmapback : (core.map urlSafeChar).map unUrlChar = core := by
    rw [List.map_map]
    have := List.map_congr_left (l := core) (f := unUrlChar ∘ urlSafeChar) (g := id)
      (by
        intro a ha
        obtain ⟨n, hn, rfl⟩ := hgood a ha
        exact b64CharOf_url n hn)
    rw [this, List.map_id]
  have hlen2 : (core.map urlSafeChar).length = core.length := List.length_map _ _
  unfold TAPSigner.base64UrlDecodeE
  rw [hencdata]
  simp only [hmapback, hlen2]
  have hm4 : core.length % 4 = 0 ∨ core.length % 4 = 2 ∨ core.length % 4 = 3 := by
    have h3 : bytes.length % 3 = 0 ∨ bytes.length % 3 = 1 ∨ bytes.length % 3 = 2 := by
      omega
    rcases h3 with h3 | h3 | h3 <;> rw [h3] at hlen <;> simp at hlen <;> omega
  have hp2 : (4 - core.length % 4) % 4 ≤ 2 := by omega
  have hmod : (core.length + (4 - core.length % 4) % 4) % 4 = 0 := by omega
  rw [atob_of_core core _ hgood hp2 hmod, hdec]

/-! ### Wrapper stripping and signature facts -/

theorem stripSigWrapper_wrap (x : String) :
    stripSigWrapper (("sig2=:") ++ x ++ (":")) = x := by
  simp only [stripSigWrapper]
  have hdata : (("sig2=:") ++ x ++ (":")).data =
      ("sig2=:").data ++ (x.data ++ [(':')]) := by
    rw [strData_append, strData_append, List.append_assoc]
  rw [hdata]
  have ht : (("sig2=:").data ++ (x.data ++ [(':')])).take 6 = ("sig2=:").data :=
    List.take_left (("sig2=:").data) (x.data ++ [(':')])
  have hd : (("sig2=:").data ++ (x.data ++ [(':')])).drop 6 = x.data ++ [(':')] :=
    List.drop_left (("sig2=:").data) (x.data ++ [(':')])
  rw [if_pos ht, hd, if_pos (List.getLast?_concat _), List.dropLast_concat]

theorem idealSig_length (pk : List Nat) (msg : String) : (idealSig pk msg).length = 64 := by
  simp [idealSig]

theorem idealSig_lt (pk : List Nat) (msg : String) : ∀ b ∈ idealSig pk msg, b < 256 := by
  intro b hb
  unfold idealSig at hb
  simp only [List.mem_map, List.mem_range] at hb
  obtain ⟨i, _, rfl⟩ := hb
  exact Nat.mod_lt _ (by omega)

theorem all_filter_self {α : Type} (p : α → Bool) (l : List α) :
    (l.filter p).all p = true := by
  rw [List.all_eq_true]
  intro x hx
  exact (List.mem_filter.mp hx).2

theorem naclSign_lt (msg : String) (sk : List Nat) :
    ∀ b ∈ naclSignDetached msg sk, b < 256 := idealSig_lt _ _

theorem naclSign_length (msg : String) (sk : List Nat) :
    (naclSignDetached msg sk).length = 64 := idealSig_length _ _


/-! ### Claim theorems -/

/-- C2: the signature-base builder returns exactly the three canonical lines
joined by single literal newlines, with no trailing newline (the last
character is always the closing double quote) and every field inserted
verbatim. -/
theorem createSignatureBase_canonical (authority path : String) (created : Nat)
    (keyid : String) (expires : Nat) (nonce tag : String) :
    TAPSigner.createSignatureBase authority path created keyid expires nonce tag =
      specCanonicalize authority path created keyid expires nonce tag ∧
    (TAPSigner.createSignatureBase authority path created keyid expires nonce
      tag).data.getLast? = some ('"') := by
  constructor
  · apply strExt
    have hspec : specCanonicalize authority path created keyid expires nonce tag =
        (("\"@authority\": ") ++ authority) ++ ("\n") ++
        (("\"@path\": ") ++ path) ++ ("\n") ++
        (("\"@signature-params\": sig2=(\"@authority\" \"@path\");created=") ++
          Nat.repr created ++ (";keyid=\"") ++ keyid ++ ("\";expires=") ++
          Nat.repr expires ++ (";nonce=\"") ++ nonce ++ ("\";tag=\"") ++ tag ++ ("\"")) :=
      rfl
    rw [hspec]
    simp only [TAPSigner.createSignatureBase, strData_append, List.append_assoc]
    rfl
  · have hshape : TAPSigner.createSignatureBase authority path created keyid expires
        nonce tag =
        (("\"@authority\": ") ++ authority ++ ("\n") ++
         ("\"@path\": ") ++ path ++ ("\n") ++
         ("\"@signature-params\": sig2=(\"@authority\" \"@path\");") ++
         ("created=") ++ Nat.repr created ++ (";") ++
         ("keyid=\"") ++ keyid ++ ("\";") ++
         ("expires=") ++ Nat.repr expires ++ (";") ++
         ("nonce=\"") ++ nonce ++ ("\";") ++
         ("tag=\"") ++ tag) ++ ("\"") := rfl
    rw [hshape, strData_append]
    exact List.getLast?_concat _

/-- C4: the envelope's `Signature-Input` carries `expires = created + 480`
(fixed policy for every call), and its `Signature` is exactly `sig2=:` +
base64url (padding-free) of the 64-byte detached signature over the canonical
base + `:`. -/
theorem signTAPRequest_post (st : TAPSigner) (req : TAPRequestData) (created : Nat) :
    (TAPSigner.signTAPRequest st req created).signatureInput =
      buildSignatureInput created st.keyId (created + 480) req.nonce req.tag ∧
    (TAPSigner.signTAPRequest st req created).signature =
      ("sig2=:") ++ TAPSigner.base64UrlEncode (naclSignDetached
        (TAPSigner.createSignatureBase req.authority req.path created st.keyId
          (created + 480) req.nonce req.tag) st.keyPair.secretKey) ++ (":") ∧
    (naclSignDetached (TAPSigner.createSignatureBase req.authority req.path created
      st.keyId (created + 480) req.nonce req.tag) st.keyPair.secretKey).length = 64 ∧
    (TAPSigner.base64UrlEncode (naclSignDetached (TAPSigner.createSignatureBase
      req.authority req.path created st.keyId (created + 480) req.nonce req.tag)
      st.keyPair.secretKey)).data.all (fun c => c ≠ ('=')) = true :=
  ⟨rfl, rfl, idealSig_length _ _, all_filter_self _ _⟩

/-- C1: signing then verifying succeeds — for a signer whose key pair has the
`tweetnacl` layout, rebuilding the canonical base from the same fields and the
same `created` / `expires` values and verifying the wrapper-stripped signature
against the public key matching the signing secret key returns `true`. -/
theorem sign_verify_roundtrip (st : TAPSigner) (req : TAPRequestData) (created : Nat)
    (hlen : st.keyPair.secretKey.length = 64)
    (hpk : st.keyPair.publicKey = st.keyPair.secretKey.drop 32) :
    TAPSigner.verifySignature st
      (TAPSigner.createSignatureBase req.authority req.path created st.keyId
        (created + 480) req.nonce req.tag)
      (stripSigWrapper (TAPSigner.signTAPRequest st req created).signature)
      (some st.keyPair.publicKey) = true := by
  have hE : TAPSigner.verifySignatureE st
      (TAPSigner.createSignatureBase req.authority req.path created st.keyId
        (created + 480) req.nonce req.tag)
      (TAPSigner.base64UrlEncode (naclSignDetached
        (TAPSigner.createSignatureBase req.authority req.path created st.keyId
          (created + 480) req.nonce req.tag) st.keyPair.secretKey))
      (some st.keyPair.publicKey) = Except.ok true := by
    unfold TAPSigner.verifySignatureE
    rw [b64url_roundtrip _ (naclSign_lt _ _)]
    show naclVerifyDetachedE
      (TAPSigner.createSignatureBase req.authority req.path created st.keyId
        (created + 480) req.nonce req.tag)
      (naclSignDetached (TAPSigner.createSignatureBase req.authority req.path created
        st.keyId (created + 480) req.nonce req.tag) st.keyPair.secretKey)
      st.keyPair.publicKey = Except.ok true
    have hl : (naclSignDetached (TAPSigner.createSignatureBase req.authority req.path
        created st.keyId (created + 480) req.nonce req.tag)
        st.keyPair.secretKey).length = 64 := idealSig_length _ _
    have hpl : st.keyPair.publicKey.length = 32 := by
      rw [hpk, List.length_drop, hlen]
    unfold naclVerifyDetachedE
    rw [if_neg (by simp [hl]), if_neg (by simp [hpl]), hpk]
    simp [naclSignDetached]
  have hsig : (TAPSigner.signTAPRequest st req created).signature =
      ("sig2=:") ++ TAPSigner.base64UrlEncode (naclSignDetached
        (TAPSigner.createSignatureBase req.authority req.path created st.keyId
          (created + 480) req.nonce req.tag) st.keyPair.secretKey) ++ (":") := rfl
  rw [hsig, stripSigWrapper_wrap]
  unfold TAPSigner.verifySignature
  rw [hE]

/-- C1 witness: the round trip at a concrete signer, request and timestamp. -/
theorem sign_verify_roundtrip_witness :
    signerA.keyPair.secretKey.length = 64 ∧
    signerA.keyPair.publicKey = signerA.keyPair.secretKey.drop 32 ∧
    TAPSigner.verifySignature signerA
      (TAPSigner.createSignatureBase reqA.authority reqA.path 1700000000
        signerA.keyId (1700000000 + 480) reqA.nonce reqA.tag)
      (stripSigWrapper (TAPSigner.signTAPRequest signerA reqA 1700000000).signature)
      (some signerA.keyPair.publicKey) = true :=
  ⟨by decide, by decide,
   sign_verify_roundtrip signerA reqA 1700000000 (by decide) (by decide)⟩

/-- C10: when `verifySignature` is called with the public key omitted, it
silently falls back to the signer's own public key, so any envelope the signer
itself produced verifies with no explicit key. -/
theorem verify_defaults_to_own_key (st : TAPSigner) (req : TAPRequestData)
    (created : Nat) (hlen : st.keyPair.secretKey.length = 64)
    (hpk : st.keyPair.publicKey = st.keyPair.secretKey.drop 32) :
    TAPSigner.verifySignature st
      (TAPSigner.createSignatureBase req.authority req.path created st.keyId
        (created + 480) req.nonce req.tag)
      (stripSigWrapper (TAPSigner.signTAPRequest st req created).signature)
      none = true := by
  have hE : TAPSigner.verifySignatureE st
      (TAPSigner.createSignatureBase req.authority req.path created st.keyId
        (created + 480) req.nonce req.tag)
      (TAPSigner.base64UrlEncode (naclSignDetached
        (TAPSigner.createSignatureBase req.authority req.path created st.keyId
          (created + 480) req.nonce req.tag) st.keyPair.secretKey))
      none = Except.ok true := by
    unfold TAPSigner.verifySignatureE
    rw [b64url_roundtrip _ (naclSign_lt _ _)]
    show naclVerifyDetachedE
      (TAPSigner.createSignatureBase req.authority req.path created st.keyId
        (created + 480) req.nonce req.tag)
      (naclSignDetached (TAPSigner.createSignatureBase req.authority req.path created
        st.keyId (created + 480) req.nonce req.tag) st.keyPair.secretKey)
      st.keyPair.publicKey = Except.ok true
    have hl : (naclSignDetached (TAPSigner.createSignatureBase req.authority req.path
        created st.keyId (created + 480) req.nonce req.tag)
        st.keyPair.secretKey).length = 64 := idealSig_length _ _
    have hpl : st.keyPair.publicKey.length = 32 := by
      rw [hpk, List.length_drop, hlen]
    unfold naclVerifyDetachedE
    rw [if_neg (by simp [hl]), if_neg (by simp [hpl]), hpk]
    simp [naclSignDetached]
  have hsig : (TAPSigner.signTAPRequest st req created).signature =
      ("sig2=:") ++ TAPSigner.base64UrlEncode (naclSignDetached
        (TAPSigner.createSignatureBase req.authority req.path created st.keyId
          (created + 480) req.nonce req.tag) st.keyPair.secretKey) ++ (":") := rfl
  rw [hsig, stripSigWrapper_wrap]
  unfold TAPSigner.verifySignature
  rw [hE]

/-- C10 witness: no-key verification of a self-produced envelope at concrete
inputs. -/
theorem verify_defaults_to_own_key_witness :
    signerA.keyPair.secretKey.length = 64 ∧
    signerA.keyPair.publicKey = signerA.keyPair.secretKey.drop 32 ∧
    TAPSigner.verifySignature signerA
      (TAPSigner.createSignatureBase reqA.authority reqA.path 1700000000
        signerA.keyId (1700000000 + 480) reqA.nonce reqA.tag)
      (stripSigWrapper (TAPSigner.signTAPRequest signerA reqA 1700000000).signature)
      none = true :=
  ⟨by decide, by decide,
   verify_defaults_to_own_key signerA reqA 1700000000 (by decide) (by decide)⟩

/-- Shared helper: the route-side base builder agrees with the signer-side
builder whenever the parsed parameters carry the same field values, whatever
order (or extra entries) the parameter object has. -/
theorem routeBase_eq (authority path : String) (created expires : Nat)
    (keyid nonce tag : String) (params : List (String × String))
    (h1 : getParam params ("created") = Nat.repr created)
    (h2 : getParam params ("keyid") = keyid)
    (h3 : getParam params ("expires") = Nat.repr expires)
    (h4 : getParam params ("nonce") = nonce)
    (h5 : getParam params ("tag") = tag) :
    routeCreateSignatureBase authority path params =
      TAPSigner.createSignatureBase authority path created keyid expires nonce tag := by
  unfold routeCreateSignatureBase TAPSigner.createSignatureBase
  rw [h1, h2, h3, h4, h5]

/-- C3: the `/verify` handler first strips the `sig2=:` / trailing `:` wrapper
from the signature and passes the result to `verifySignature`, and every
exception the cryptographic body can raise (decode errors, wrong lengths) is
absorbed into the boolean `false`; `verifySignature` is a total boolean
function, so no input makes an exception cross the verify boundary. -/
theorem verify_fails_closed (st : TAPSigner)
    (signatureInput signature authority path : String) (pubKeyBytes : List Nat) :
    routeVerify st signatureInput signature authority path pubKeyBytes =
      TAPSigner.verifySignature st
        (routeCreateSignatureBase authority path (parseSignatureInput signatureInput))
        (stripSigWrapper signature) (some pubKeyBytes) ∧
    (∀ e, TAPSigner.verifySignatureE st
        (routeCreateSignatureBase authority path (parseSignatureInput signatureInput))
        (stripSigWrapper signature) (some pubKeyBytes) = Except.error e →
      routeVerify st signatureInput signature authority path pubKeyBytes = false) := by
  constructor
  · rfl
  · intro e he
    show TAPSigner.verifySignature st
      (routeCreateSignatureBase authority path (parseSignatureInput signatureInput))
      (stripSigWrapper signature) (some pubKeyBytes) = false
    unfold TAPSigner.verifySignature
    rw [he]

/-- C3 witness: a malformed signature makes the body throw a decode error and
the route-level verification return `false`. -/
theorem verify_fails_closed_witness :
    TAPSigner.verifySignatureE signerA
      (routeCreateSignatureBase ("a") ("p") (parseSignatureInput ("si")))
      (stripSigWrapper ("sig2=:!!!:")) (some pairA.publicKey) =
      Except.error ("InvalidCharacterError") ∧
    routeVerify signerA ("si") ("sig2=:!!!:") ("a") ("p") pairA.publicKey = false :=
  ⟨rfl,
   (verify_fails_closed signerA ("si") ("sig2=:!!!:") ("a") ("p") pairA.publicKey).2
     ("InvalidCharacterError") rfl⟩

/-- C5: the signer's base builder and the verifier route's base builder are
pure functions that produce the identical string on the same field values, and
the route builder always emits the canonical field order of section 4.1
regardless of the order in which the parameters were parsed. -/
theorem canonicalizer_agreement (authority path : String) (created expires : Nat)
    (keyid nonce tag : String) (params : List (String × String))
    (h1 : getParam params ("created") = Nat.repr created)
    (h2 : getParam params ("keyid") = keyid)
    (h3 : getParam params ("expires") = Nat.repr expires)
    (h4 : getParam params ("nonce") = nonce)
    (h5 : getParam params ("tag") = tag) :
    routeCreateSignatureBase authority path params =
      TAPSigner.createSignatureBase authority path created keyid expires nonce tag :=
  routeBase_eq authority path created expires keyid nonce tag params h1 h2 h3 h4 h5

/-- C5 witness: a parameter object listing the fields in reverse order still
rebuilds the signer's exact base string. -/
theorem canonicalizer_agreement_witness :
    getParam paramsW ("created") = Nat.repr 1700000000 ∧
    getParam paramsW ("keyid") = ("kid1") ∧
    getParam paramsW ("expires") = Nat.repr 1700000480 ∧
    getParam paramsW ("nonce") = ("abc") ∧
    getParam paramsW ("tag") = ("agent-payer-auth") ∧
    routeCreateSignatureBase ("m.example") ("/checkout") paramsW =
      TAPSigner.createSignatureBase ("m.example") ("/checkout") 1700000000 ("kid1")
        1700000480 ("abc") ("agent-payer-auth") :=
  ⟨by decide, by decide, by decide, by decide, by decide,
   canonicalizer_agreement ("m.example") ("/checkout") 1700000000 1700000480 ("kid1")
     ("abc") ("agent-payer-auth") paramsW (by decide) (by decide) (by decide)
     (by decide) (by decide)⟩

/-! ### Behaviour of the parameter-regex scan -/

theorem takeWordRun_len : ∀ s : List Char, (takeWordRun s).2.length ≤ s.length
  | [] => by simp [takeWordRun]
  | c :: cs => by
    by_cases h : isWordChar c
    · simp only [takeWordRun, h, if_true]
      exact Nat.le_succ_of_le (takeWordRun_len cs)
    · simp [takeWordRun, h]

theorem takeNonSemi_len : ∀ s : List Char, (takeNonSemi s).2.length ≤ s.length
  | [] => by simp [takeNonSemi]
  | c :: cs => by
    by_cases h : c = (';')
    · simp [takeNonSemi, h]
    · simp only [takeNonSemi, h, if_neg]
      exact Nat.le_succ_of_le (takeNonSemi_len cs)

theorem takeWordRun_append : ∀ (w r : List Char), (∀ c ∈ w, isWordChar c = true) →
    (∀ c, r.head? = some c → isWordChar c = false) → takeWordRun (w ++ r) = (w, r)
  | [], [], _, _ => rfl
  | [], c :: r', _, hr => by
    simp [takeWordRun, hr c rfl]
  | a :: w', r, hw, hr => by
    have ha := hw a (by simp)
    have ih := takeWordRun_append w' r (fun c hc => hw c (by simp [hc])) hr
    simp only [List.cons_append, takeWordRun, ha, if_true]
    have ih2 : takeWordRun (w'.append r) = (w', r) := ih
    rw [ih2]

theorem takeNonSemi_append : ∀ (v r : List Char), (∀ c ∈ v, ¬ c = (';')) →
    (∀ c, r.head? = some c → c = (';')) → takeNonSemi (v ++ r) = (v, r)
  | [], [], _, _ => rfl
  | [], c :: r', _, hr => by
    simp [takeNonSemi, hr c rfl]
  | a :: v', r, hv, hr => by
    have ha := hv a (by simp)
    have ih := takeNonSemi_append v' r (fun c hc => hv c (by simp [hc])) hr
    simp only [List.cons_append, takeNonSemi, ha, if_neg, if_false]
    have ih2 : takeNonSemi (v'.append r) = (v', r) := ih
    rw [ih2]

/-- Fuel insensitivity of the regex scan: any fuel above the input length
yields the same match list. -/
theorem jsMatchGo_fuel : ∀ (f1 f2 : Nat) (s : List Char),
    s.length < f1 → s.length < f2 → jsMatchGo f1 s = jsMatchGo f2 s
  | 0, _, _, h1, _ => by omega
  | _ + 1, 0, _, _, h2 => by omega
  | _ + 1, _ + 1, [], _, _ => rfl
  | f1 + 1, f2 + 1, c :: rest, h1, h2 => by
    have hrest1 : rest.length < f1 := by
      simp only [List.length_cons] at h1
      omega
    have hrest2 : rest.length < f2 := by
      simp only [List.length_cons] at h2
      omega
    simp only [jsMatchGo]
    by_cases hw : isWordChar c
    · simp only [hw, if_true]
      by_cases hh : (takeWordRun rest).2.head? = some ('=')
      · rw [if_pos hh, if_pos hh]
        by_cases hv : (takeNonSemi (takeWordRun rest).2.tail).1 = []
        · rw [if_pos hv, if_pos hv]
          exact jsMatchGo_fuel f1 f2 rest hrest1 hrest2
        · rw [if_neg hv, if_neg hv]
          have hb1 : (takeWordRun rest).2.length ≤ rest.length := takeWordRun_len rest
          have hb2 : (takeWordRun rest).2.tail.length ≤ rest.length := by
            rw [List.length_tail]
            omega
          have hb3 : (takeNonSemi (takeWordRun rest).2.tail).2.length ≤ rest.length :=
            le_trans (takeNonSemi_len _) hb2
          rw [jsMatchGo_fuel f1 f2 (takeNonSemi (takeWordRun rest).2.tail).2
            (by omega) (by omega)]
      · rw [if_neg hh, if_neg hh]
        exact jsMatchGo_fuel f1 f2 rest hrest1 hrest2
    · simp only [hw, if_false]
      exact jsMatchGo_fuel f1 f2 rest hrest1 hrest2

theorem headSemi (X : List Char) : ∀ c, ((';') :: X).head? = some c → c = (';') := by
  intro c hc
  exact (Option.some.inj hc).symm

theorem jsMatchAll_semi (rest : List Char) :
    jsMatchAll ((';') :: rest) = jsMatchAll rest := by
  show jsMatchGo (((';') :: rest).length + 1) ((';') :: rest) =
    jsMatchGo (rest.length + 1) rest
  simp only [List.length_cons]
  simp only [jsMatchGo]
  rw [if_neg (by decide : ¬ isWordChar (';') = true)]

/-- One successful match step of the global scan: a nonempty word key, an
equals sign, a nonempty semicolon-free value, followed by a semicolon (or the
end of the string). -/
theorem jsMatchAll_seg (w v rest : List Char)
    (hwne : w ≠ []) (hwall : ∀ c ∈ w, isWordChar c = true)
    (hvne : v ≠ []) (hvall : ∀ c ∈ v, ¬ c = (';'))
    (hr : ∀ c, rest.head? = some c → c = (';')) :
    jsMatchAll (w ++ ('=') :: (v ++ rest)) = (w ++ ('=') :: v) :: jsMatchAll rest := by
  obtain ⟨c, w', rfl⟩ := List.exists_cons_of_ne_nil hwne
  have hco : (c :: w') ++ ('=') :: (v ++ rest) = c :: (w' ++ ('=') :: (v ++ rest)) := by
    simp
  have hco2 : (c :: w') ++ ('=') :: v = c :: (w' ++ ('=') :: v) := by
    simp
  rw [hco, hco2]
  show jsMatchGo ((c :: (w' ++ ('=') :: (v ++ rest))).length + 1) _ = _
  simp only [List.length_cons]
  simp only [jsMatchGo]
  rw [if_pos (hwall c (by simp))]
  have htw : takeWordRun (w' ++ ('=') :: (v ++ rest)) = (w', ('=') :: (v ++ rest)) :=
    takeWordRun_append w' _ (fun d hd => hwall d (by simp [hd]))
      (by
        intro d hd
        rw [← Option.some.inj hd]
        decide)
  have htw1 : (takeWordRun (w' ++ ('=') :: (v ++ rest))).1 = w' := by rw [htw]
  have htw2 : (takeWordRun (w' ++ ('=') :: (v ++ rest))).2 = ('=') :: (v ++ rest) := by
    rw [htw]
  rw [htw1, htw2,
    if_pos (show (('=') :: (v ++ rest)).head? = some ('=') from rfl), List.tail_cons]
  have htn : takeNonSemi (v ++ rest) = (v, rest) := takeNonSemi_append v rest hvall hr
  have htn1 : (takeNonSemi (v ++ rest)).1 = v := by rw [htn]
  have htn2 : (takeNonSemi (v ++ rest)).2 = rest := by rw [htn]
  rw [htn1, htn2, if_neg hvne]
  congr 1
  show jsMatchGo ((w' ++ ('=') :: (v ++ rest)).length + 1) rest =
    jsMatchGo (rest.length + 1) rest
  apply jsMatchGo_fuel
  · simp only [List.length_append, List.length_cons]
    omega
  · omega

/-- The successful match step for a double-quoted value. -/
theorem jsMatchAll_qseg (w inner rest : List Char)
    (hwne : w ≠ []) (hwall : ∀ c ∈ w, isWordChar c = true)
    (hinner : ∀ c ∈ inner, ¬ c = (';'))
    (hr : ∀ c, rest.head? = some c → c = (';')) :
    jsMatchAll (w ++ ('=') :: ('"') :: (inner ++ ('"') :: rest)) =
      (w ++ ('=') :: ('"') :: (inner ++ [('"')])) :: jsMatchAll rest := by
  have hvne : ('"') :: inner ++ [('"')] ≠ [] := by simp
  have hvall : ∀ c ∈ ('"') :: inner ++ [('"')], ¬ c = (';') := by
    intro d hd
    rcases List.mem_cons.mp hd with rfl | hd
    · decide
    · rcases List.mem_append.mp hd with hd | hd
      · exact hinner d hd
      · rw [List.mem_singleton.mp hd]
        decide
  have h := jsMatchAll_seg w (('"') :: inner ++ [('"')]) rest hwne hwall hvne hvall hr
  have e1 : w ++ ('=') :: ((('"') :: inner ++ [('"')]) ++ rest) =
      w ++ ('=') :: ('"') :: (inner ++ ('"') :: rest) := by
    simp
  have e2 : w ++ ('=') :: (('"') :: inner ++ [('"')]) =
      w ++ ('=') :: ('"') :: (inner ++ [('"')]) := by
    simp
  rw [e1, e2] at h
  exact h

theorem jsMatchAll_nil : jsMatchAll ([] : List Char) = [] := rfl

/-- Splitting one match on its equals signs: key before the first `=`, value
between the first and second `=`, quotes deleted from the value. -/
theorem procMatch_plain (w v : List Char) (hw : ∀ ch ∈ w, ¬ ch = ('='))
    (hv1 : ∀ ch ∈ v, ¬ ch = ('=')) (hv2 : ∀ ch ∈ v, ¬ ch = ('"')) :
    procMatch (w ++ ('=') :: v) = (String.mk w, String.mk v) := by
  unfold procMatch
  rw [takeWhile_append_stop _ w ('=') v (by intro a ha; simpa using hw a ha) (by simp),
    dropWhile_append_stop _ w ('=') v (by intro a ha; simpa using hw a ha) (by simp),
    List.tail_cons, takeWhile_all _ v (by intro a ha; simpa using hv1 a ha),
    List.filter_eq_self.mpr (by intro a ha; simpa using hv2 a ha)]

theorem procMatch_quoted (w inner : List Char) (hw : ∀ ch ∈ w, ¬ ch = ('='))
    (hi1 : ∀ ch ∈ inner, ¬ ch = ('=')) (hi2 : ∀ ch ∈ inner, ¬ ch = ('"')) :
    procMatch (w ++ ('=') :: ('"') :: (inner ++ [('"')])) = (String.mk w, String.mk inner) := by
  unfold procMatch
  rw [takeWhile_append_stop _ w ('=') _ (by intro a ha; simpa using hw a ha) (by simp),
    dropWhile_append_stop _ w ('=') _ (by intro a ha; simpa using hw a ha) (by simp),
    List.tail_cons]
  have hall : List.takeWhile (fun ch => ch ≠ ('=')) (('"') :: (inner ++ [('"')])) =
      ('"') :: (inner ++ [('"')]) := by
    apply takeWhile_all
    intro a ha
    rcases List.mem_cons.mp ha with rfl | ha
    · decide
    · rcases List.mem_append.mp ha with ha | ha
      · simpa using hi1 a ha
      · rw [List.mem_singleton.mp ha]
        decide
  rw [hall]
  have hfil : List.filter (fun ch => ch ≠ ('"')) (('"') :: (inner ++ [('"')])) = inner := by
    rw [List.filter_cons_of_neg (by simp), List.filter_append,
      List.filter_eq_self.mpr (by intro a ha; simpa using hi2 a ha)]
    simp
  rw [hfil]

theorem procMatch_qsplit (w n1 mid : List Char) (hw : ∀ ch ∈ w, ¬ ch = ('='))
    (h1 : ∀ ch ∈ n1, ¬ ch = ('=')) (h2 : ∀ ch ∈ n1, ¬ ch = ('"')) :
    procMatch (w ++ ('=') :: ('"') :: (n1 ++ ('=') :: mid)) = (String.mk w, String.mk n1) := by
  unfold procMatch
  rw [takeWhile_append_stop _ w ('=') _ (by intro a ha; simpa using hw a ha) (by simp),
    dropWhile_append_stop _ w ('=') _ (by intro a ha; simpa using hw a ha) (by simp),
    List.tail_cons]
  have htake : List.takeWhile (fun ch => ch ≠ ('=')) (('"') :: (n1 ++ ('=') :: mid)) =
      ('"') :: n1 := by
    rw [@List.takeWhile_cons_of_pos Char (fun c => decide (c ≠ ('='))) ('"')
        (n1 ++ ('=') :: mid) (by decide),
      takeWhile_append_stop _ n1 ('=') mid (by intro a ha; simpa using h1 a ha) (by simp)]
  rw [htake]
  have hfil : List.filter (fun ch => ch ≠ ('"')) (('"') :: n1) = n1 := by
    rw [List.filter_cons_of_neg (by simp),
      List.filter_eq_self.mpr (by intro a ha; simpa using h2 a ha)]
  rw [hfil]

/-- The global regex scan on a `Signature-Input` built by the signer finds
exactly the six `key=value` matches. -/
theorem jsMatchAll_build (c e : Nat) (k n t : String)
    (hk : ∀ ch ∈ k.data, ¬ ch = (';'))
    (hn : ∀ ch ∈ n.data, ¬ ch = (';'))
    (ht : ∀ ch ∈ t.data, ¬ ch = (';')) :
    jsMatchAll (buildSignatureInput c k e n t).data =
      [("sig2").data ++ ('=') :: ("(\"@authority\" \"@path\")").data,
       ("created").data ++ ('=') :: (Nat.repr c).data,
       ("keyid").data ++ ('=') :: ('"') :: (k.data ++ [('"')]),
       ("expires").data ++ ('=') :: (Nat.repr e).data,
       ("nonce").data ++ ('=') :: ('"') :: (n.data ++ [('"')]),
       ("tag").data ++ ('=') :: ('"') :: (t.data ++ [('"')])] := by
  have hshape : (buildSignatureInput c k e n t).data =
      ("sig2").data ++ ('=') :: (("(\"@authority\" \"@path\")").data ++ (';') ::
      (("created").data ++ ('=') :: ((Nat.repr c).data ++ (';') ::
      (("keyid").data ++ ('=') :: ('"') :: (k.data ++ ('"') :: (';') ::
      (("expires").data ++ ('=') :: ((Nat.repr e).data ++ (';') ::
      (("nonce").data ++ ('=') :: ('"') :: (n.data ++ ('"') :: (';') ::
      (("tag").data ++ ('=') :: ('"') :: (t.data ++ [('"')]))))))))))) := by
    simp only [buildSignatureInput, strData_append, List.append_assoc]
    rfl
  rw [hshape]
  rw [jsMatchAll_seg]
  rotate_left
  · decide
  · decide
  · decide
  · decide
  · exact headSemi _
  rw [jsMatchAll_semi, jsMatchAll_seg]
  rotate_left
  · decide
  · decide
  · exact repr_ne_nil c
  · intro ch hch
    exact isDigit_ne_semi (repr_all_digits c ch hch)
  · exact headSemi _
  rw [jsMatchAll_semi, jsMatchAll_qseg]
  rotate_left
  · decide
  · decide
  · exact hk
  · exact headSemi _
  rw [jsMatchAll_semi, jsMatchAll_seg]
  rotate_left
  · decide
  · decide
  · exact repr_ne_nil e
  · intro ch hch
    exact isDigit_ne_semi (repr_all_digits e ch hch)
  · exact headSemi _
  rw [jsMatchAll_semi, jsMatchAll_qseg]
  rotate_left
  · decide
  · decide
  · exact hn
  · exact headSemi _
  rw [jsMatchAll_semi, jsMatchAll_qseg]
  rotate_left
  · decide
  · decide
  · exact ht
  · intro ch hch
    simp at hch
  rw [jsMatchAll_nil]

/-- Full characterization of `parseSignatureInput` on a signer-built
`Signature-Input` whose nonce contains an equals sign: every field parses
verbatim except the nonce, which is truncated at its first `=`. -/
theorem parse_build (c e : Nat) (k n1 n2 t : String)
    (hk : ∀ ch ∈ k.data, ¬ ch = (';') ∧ ¬ ch = ('=') ∧ ¬ ch = ('"'))
    (hn1 : ∀ ch ∈ n1.data, ¬ ch = (';') ∧ ¬ ch = ('=') ∧ ¬ ch = ('"'))
    (hn2 : ∀ ch ∈ n2.data, ¬ ch = (';'))
    (ht : ∀ ch ∈ t.data, ¬ ch = (';') ∧ ¬ ch = ('=') ∧ ¬ ch = ('"')) :
    parseSignatureInput (buildSignatureInput c k e (n1 ++ ("=") ++ n2) t) =
      [(("sig2"), ("(@authority @path)")), (("created"), Nat.repr c),
       (("keyid"), k), (("expires"), Nat.repr e), (("nonce"), n1), (("tag"), t)] := by
  have hnall : ∀ ch ∈ (n1 ++ ("=") ++ n2).data, ¬ ch = (';') := by
    intro ch hch
    rw [strData_append, strData_append] at hch
    rcases List.mem_append.mp hch with hch | hch
    · rcases List.mem_append.mp hch with hch | hch
      · exact (hn1 ch hch).1
      · rw [List.mem_singleton.mp hch]
        decide
    · exact hn2 ch hch
  unfold parseSignatureInput
  rw [jsMatchAll_build c e k (n1 ++ ("=") ++ n2) t (fun ch hch => (hk ch hch).1) hnall
    (fun ch hch => (ht ch hch).1)]
  simp only [List.map_cons, List.map_nil]
  rw [show procMatch (("sig2").data ++ ('=') :: ("(\"@authority\" \"@path\")").data) =
      (("sig2"), ("(@authority @path)")) from rfl]
  rw [procMatch_plain (("created").data) ((Nat.repr c).data) (by decide)
    (fun ch hch => isDigit_ne_eq (repr_all_digits c ch hch))
    (fun ch hch => isDigit_ne_quote (repr_all_digits c ch hch))]
  rw [procMatch_quoted (("keyid").data) k.data (by decide)
    (fun ch hch => (hk ch hch).2.1) (fun ch hch => (hk ch hch).2.2)]
  rw [procMatch_plain (("expires").data) ((Nat.repr e).data) (by decide)
    (fun ch hch => isDigit_ne_eq (repr_all_digits e ch hch))
    (fun ch hch => isDigit_ne_quote (repr_all_digits e ch hch))]
  have hre : (n1 ++ ("=") ++ n2).data ++ [('"')] =
      n1.data ++ ('=') :: (n2.data ++ [('"')]) := by
    rw [strData_append, strData_append]
    simp
  rw [hre]
  rw [procMatch_qsplit (("nonce").data) n1.data (n2.data ++ [('"')]) (by decide)
    (fun ch hch => (hn1 ch hch).2.1) (fun ch hch => (hn1 ch hch).2.2)]
  rw [procMatch_quoted (("tag").data) t.data (by decide)
    (fun ch hch => (ht ch hch).2.1) (fun ch hch => (ht ch hch).2.2)]

/-- Changing the nonce from `n1` to `n1 ++ "=" ++ n2` changes the canonical
base: the two strings differ at the position after `n1`. -/
theorem createSignatureBase_nonce_ne (a p : String) (c : Nat) (k : String) (e : Nat)
    (n1 n2 t : String) :
    TAPSigner.createSignatureBase a p c k e n1 t ≠
      TAPSigner.createSignatureBase a p c k e (n1 ++ ("=") ++ n2) t := by
  intro h
  have hd := congrArg String.data h
  simp only [TAPSigner.createSignatureBase, strData_append, List.append_assoc,
    List.cons_append, List.append_right_inj, List.cons.injEq, true_and] at hd
  exact absurd hd.1 (by decide)

/-- Standard base64 of any byte list with length 1 modulo 3 (in particular the
64-byte nonces of the routes) ends in two padding characters. -/
theorem encode_len1mod3_pad : ∀ bs : List Nat, bs.length % 3 = 1 →
    ∃ q, b64encodeBytes bs = q ++ [('='), ('=')]
  | [], h => by simp at h
  | [b1], _ => ⟨[b64CharOf (b1 / 4 % 64), b64CharOf (b1 % 4 * 16)], rfl⟩
  | [b1, b2], h => by simp at h
  | b1 :: b2 :: b3 :: rest, h => by
    have hr : rest.length % 3 = 1 := by
      simp only [List.length_cons] at h
      omega
    obtain ⟨q, hq⟩ := encode_len1mod3_pad rest hr
    refine ⟨b64CharOf (b1 / 4 % 64) :: b64CharOf ((b1 % 4 * 16 + b2 / 16) % 64) ::
      b64CharOf ((b2 % 16 * 4 + b3 / 64) % 64) :: b64CharOf (b3 % 64) :: q, ?_⟩
    simp [b64encodeBytes, hq]

/-- C9: a signer-built `Signature-Input` whose nonce contains an equals sign
(which holds for every nonce the routes generate, since standard base64 of 64
random bytes ends in `==`) is parsed by `parseSignatureInput` with the nonce
truncated at its first `=`, so the base the `/verify` route rebuilds differs
from the base that was signed. -/
theorem parse_truncates_nonce (st : TAPSigner)
    (authority path method keyId0 n1 n2 t : String) (created : Nat) (bs : List Nat)
    (hkid : ∀ ch ∈ st.keyId.data, ¬ ch = (';') ∧ ¬ ch = ('=') ∧ ¬ ch = ('"'))
    (hn1 : ∀ ch ∈ n1.data, ¬ ch = (';') ∧ ¬ ch = ('=') ∧ ¬ ch = ('"'))
    (hn2 : ∀ ch ∈ n2.data, ¬ ch = (';'))
    (ht : ∀ ch ∈ t.data, ¬ ch = (';') ∧ ¬ ch = ('=') ∧ ¬ ch = ('"'))
    (hbs : bs.length = 64) :
    getParam (parseSignatureInput (TAPSigner.signTAPRequest st
      ⟨authority, path, method, keyId0, n1 ++ ("=") ++ n2, t⟩ created).signatureInput)
      ("nonce") = n1 ∧
    routeCreateSignatureBase authority path
      (parseSignatureInput (TAPSigner.signTAPRequest st
        ⟨authority, path, method, keyId0, n1 ++ ("=") ++ n2, t⟩ created).signatureInput) ≠
      TAPSigner.createSignatureBase authority path created st.keyId (created + 480)
        (n1 ++ ("=") ++ n2) t ∧
    (∃ q, b64encodeBytes bs = q ++ [('='), ('=')]) := by
  have hsi : (TAPSigner.signTAPRequest st
      ⟨authority, path, method, keyId0, n1 ++ ("=") ++ n2, t⟩ created).signatureInput =
      buildSignatureInput created st.keyId (created + 480) (n1 ++ ("=") ++ n2) t := rfl
  rw [hsi, parse_build created (created + 480) st.keyId n1 n2 t hkid hn1 hn2 ht]
  refine ⟨rfl, ?_, ?_⟩
  · rw [routeBase_eq authority path created (created + 480) st.keyId n1 t
      [(("sig2"), ("(@authority @path)")), (("created"), Nat.repr created),
       (("keyid"), st.keyId), (("expires"), Nat.repr (created + 480)),
       (("nonce"), n1), (("tag"), t)] rfl rfl rfl rfl rfl]
    exact createSignatureBase_nonce_ne authority path created st.keyId (created + 480)
      n1 n2 t
  · exact encode_len1mod3_pad bs (by omega)

/-- C9 witness: a concrete signer and nonce `AAAA=` showing the truncation,
the base mismatch, and the trailing `==` of a 64-byte standard-base64 nonce. -/
theorem parse_truncates_nonce_witness :
    getParam (parseSignatureInput (TAPSigner.signTAPRequest signerA
      ⟨("m.example"), ("/checkout"), ("GET"), ("kidA"), ("AAAA") ++ ("=") ++ (""),
       ("agent-payer-auth")⟩ 1700000000).signatureInput) ("nonce") = ("AAAA") ∧
    routeCreateSignatureBase ("m.example") ("/checkout")
      (parseSignatureInput (TAPSigner.signTAPRequest signerA
        ⟨("m.example"), ("/checkout"), ("GET"), ("kidA"), ("AAAA") ++ ("=") ++ (""),
         ("agent-payer-auth")⟩ 1700000000).signatureInput) ≠
      TAPSigner.createSignatureBase ("m.example") ("/checkout") 1700000000
        signerA.keyId (1700000000 + 480) (("AAAA") ++ ("=") ++ (""))
        ("agent-payer-auth") ∧
    (∃ q, b64encodeBytes (List.replicate 64 0) = q ++ [('='), ('=')]) :=
  parse_truncates_nonce signerA ("m.example") ("/checkout") ("GET") ("kidA")
    ("AAAA") ("") ("agent-payer-auth") 1700000000 (List.replicate 64 0)
    (by decide) (by decide) (by decide) (by decide) (by decide)

/-! ### Registry map lemmas and the remaining claims -/

theorem exceptBind_ok {α β : Type} (a : α) (f : α → Except String β) :
    (Except.ok a : Except String α) >>= f = f a := rfl

theorem mapSet_mem (m : List (String × JWK)) (k : String) (v : JWK) :
    v ∈ (mapSet m k v).map (fun p => p.2) := by
  unfold mapSet
  by_cases h : m.any (fun p => p.1 == k)
  · rw [if_pos h, List.map_map]
    rw [List.any_eq_true] at h
    obtain ⟨p, hp, hpk⟩ := h
    refine List.mem_map.mpr ⟨p, hp, ?_⟩
    simp only [Function.comp]
    rw [if_pos hpk]
  · rw [if_neg h, List.map_append]
    simp

theorem mapSet_idem (m : List (String × JWK)) (k : String) (v : JWK) :
    mapSet (mapSet m k v) k v = mapSet m k v := by
  unfold mapSet
  by_cases h : m.any (fun p => p.1 == k)
  · rw [if_pos h]
    have h2 : (m.map (fun p => if p.1 == k then (k, v) else p)).any
        (fun p => p.1 == k) = true := by
      rw [List.any_eq_true] at h ⊢
      obtain ⟨p, hp, hpk⟩ := h
      exact ⟨(k, v), List.mem_map.mpr ⟨p, hp, by rw [if_pos hpk]⟩, by simp⟩
    rw [if_pos h2, List.map_map]
    have hcong : ∀ p ∈ m,
        ((fun p : String × JWK => if p.1 == k then (k, v) else p) ∘
         (fun p : String × JWK => if p.1 == k then (k, v) else p)) p =
        (fun p : String × JWK => if p.1 == k then (k, v) else p) p := by
      intro p _
      by_cases hpk : p.1 == k
      · simp only [Function.comp, if_pos hpk]
        rw [if_pos (by simp)]
      · simp only [Function.comp, if_neg hpk]
    rw [List.map_congr_left hcong]
  · rw [if_neg h]
    have hnk : ∀ p ∈ m, (p.1 == k) = false := by
      intro p hp
      by_contra hc
      exact h (List.any_eq_true.mpr ⟨p, hp, by simpa using hc⟩)
    have h2 : (m ++ [(k, v)]).any (fun p => p.1 == k) = true :=
      List.any_eq_true.mpr ⟨(k, v), by simp, by simp⟩
    rw [if_pos h2, List.map_append]
    congr 1
    · have hcong : ∀ p ∈ m,
          (fun p : String × JWK => if p.1 == k then (k, v) else p) p = id p := by
        intro p hp
        simp only [id]
        rw [if_neg (by simp [hnk p hp])]
      rw [List.map_congr_left hcong, List.map_id]
    · simp

theorem mapSet_append_of_not_mem (m : List (String × JWK)) (k : String) (v : JWK)
    (h : ∀ p ∈ m, ¬ p.1 = k) : mapSet m k v = m ++ [(k, v)] := by
  unfold mapSet
  rw [if_neg]
  intro hany
  obtain ⟨p, hp, hpk⟩ := List.any_eq_true.mp hany
  exact h p hp (by simpa using hpk)

/-- C6 amended: `getJWKS` returns the current key plus every retained key, in
map insertion order — a newly exposed current key is appended last — and the
sequence is identical across repeated calls when no rotation happens in
between. -/
theorem getJWKS_spec (st : RegistryState) (cur : JWK)
    (h : VisaKeyRegistry.ed25519ToJWKE (TAPSigner.getPublicKey st.signer)
      (TAPSigner.getKeyId st.signer) = Except.ok cur) :
    ∃ st2 keys,
      getJWKS st = Except.ok (st2, keys) ∧
      keys = (mapSet st.registeredKeys (TAPSigner.getKeyId st.signer) cur).map
        (fun p => p.2) ∧
      cur ∈ keys ∧
      getJWKS st2 = Except.ok (st2, keys) ∧
      ((∀ p ∈ st.registeredKeys, ¬ p.1 = TAPSigner.getKeyId st.signer) →
        keys = st.registeredKeys.map (fun p => p.2) ++ [cur]) := by
  refine ⟨⟨st.signer, mapSet st.registeredKeys (TAPSigner.getKeyId st.signer) cur⟩,
    (mapSet st.registeredKeys (TAPSigner.getKeyId st.signer) cur).map (fun p => p.2),
    ?_, rfl, mapSet_mem _ _ _, ?_, ?_⟩
  · simp only [getJWKS]
    rw [h, exceptBind_ok]
  · simp only [getJWKS]
    rw [h, exceptBind_ok, mapSet_idem]
  · intro hnone
    rw [mapSet_append_of_not_mem _ _ _ hnone, List.map_append]
    rfl


/-- C6 counterexample: after one rotation, the most-recently-active key is the
last entry of the JWKS, not the first. -/
theorem getJWKS_order_cex :
    c6chain.map (fun r => (decide (r.1.head? = some r.2),
      decide (r.1.getLast? = some r.2))) = Except.ok (false, true) := rfl


/-- C6 witness: the amended `getJWKS` contract at a concrete registry. -/
theorem getJWKS_spec_witness :
    VisaKeyRegistry.ed25519ToJWKE (TAPSigner.getPublicKey regZ.signer)
      (TAPSigner.getKeyId regZ.signer) = Except.ok jwkZ ∧
    (∃ st2 keys,
      getJWKS regZ = Except.ok (st2, keys) ∧
      keys = (mapSet regZ.registeredKeys (TAPSigner.getKeyId regZ.signer) jwkZ).map
        (fun p => p.2) ∧
      jwkZ ∈ keys ∧
      getJWKS st2 = Except.ok (st2, keys) ∧
      ((∀ p ∈ regZ.registeredKeys, ¬ p.1 = TAPSigner.getKeyId regZ.signer) →
        keys = regZ.registeredKeys.map (fun p => p.2) ++ [jwkZ])) :=
  ⟨rfl, getJWKS_spec regZ jwkZ rfl⟩

theorem natToBytesBECore_lt : ∀ (fuel n : Nat) (acc : List Nat),
    (∀ b ∈ acc, b < 256) → ∀ b ∈ natToBytesBECore fuel n acc, b < 256
  | 0, n, acc, hacc => by
    unfold natToBytesBECore
    exact hacc
  | fuel + 1, n, acc, hacc => by
    unfold natToBytesBECore
    split
    · exact hacc
    · exact natToBytesBECore_lt fuel (n / 256) _ (by
        intro b hb
        rcases List.mem_cons.mp hb with rfl | hb
        · exact Nat.mod_lt _ (by omega)
        · exact hacc b hb)

theorem bs58decodeE_lt (s : String) (bytes : List Nat)
    (h : bs58decodeE s = Except.ok bytes) : ∀ b ∈ bytes, b < 256 := by
  unfold bs58decodeE at h
  split at h
  · cases h
    intro b hb
    rcases List.mem_append.mp hb with hb | hb
    · rw [List.eq_of_mem_replicate hb]
      omega
    · exact natToBytesBECore_lt _ _ _ (by simp) b hb
  · cases h

/-- C7 amended: for every input whose base58 decode succeeds (any byte
length — the conversion performs no length validation), `ed25519ToJWK`
returns exactly the fixed-field JWK with `x` the padding-free base64url of
the decoded bytes, and base64url-decoding `x` reproduces those bytes. -/
theorem ed25519ToJWK_spec (publicKeyBase58 keyId : String) (bytes : List Nat)
    (h : bs58decodeE publicKeyBase58 = Except.ok bytes) :
    ∃ jwk, VisaKeyRegistry.ed25519ToJWKE publicKeyBase58 keyId = Except.ok jwk ∧
      jwk.kty = ("OKP") ∧ jwk.crv = ("Ed25519") ∧ jwk.alg = ("EdDSA") ∧
      jwk.use = ("sig") ∧ jwk.kid = keyId ∧
      jwk.x = VisaKeyRegistry.base64urlEncode bytes ∧
      TAPSigner.base64UrlDecodeE jwk.x = Except.ok bytes := by
  refine ⟨⟨("OKP"), keyId, ("sig"), ("EdDSA"), ("Ed25519"),
    VisaKeyRegistry.base64urlEncode bytes⟩, ?_, rfl, rfl, rfl, rfl, rfl, rfl, ?_⟩
  · unfold VisaKeyRegistry.ed25519ToJWKE
    rw [h, exceptBind_ok]
  · show TAPSigner.base64UrlDecodeE (TAPSigner.base64UrlEncode bytes) = Except.ok bytes
    exact b64url_roundtrip bytes (bs58decodeE_lt _ _ h)

/-- C7 counterexample: a one-byte public key (base58 `2`) is not rejected as a
configuration error — the conversion happily returns a JWK for it. -/
theorem ed25519ToJWK_no_length_check_cex :
    VisaKeyRegistry.ed25519ToJWKE ("2") ("kid") =
      Except.ok ⟨("OKP"), ("kid"), ("sig"), ("EdDSA"), ("Ed25519"), ("AQ")⟩ := rfl

/-- C7 witness: the JWK mapping and round trip at a concrete 32-byte key. -/
theorem ed25519ToJWK_spec_witness :
    bs58decodeE ("11111111111111111111111111111111") =
      Except.ok (List.replicate 32 0) ∧
    (∃ jwk, VisaKeyRegistry.ed25519ToJWKE ("11111111111111111111111111111111")
        ("kidZ") = Except.ok jwk ∧
      jwk.kty = ("OKP") ∧ jwk.crv = ("Ed25519") ∧ jwk.alg = ("EdDSA") ∧
      jwk.use = ("sig") ∧ jwk.kid = ("kidZ") ∧
      jwk.x = VisaKeyRegistry.base64urlEncode (List.replicate 32 0) ∧
      TAPSigner.base64UrlDecodeE jwk.x = Except.ok (List.replicate 32 0)) :=
  ⟨rfl, ed25519ToJWK_spec ("11111111111111111111111111111111") ("kidZ")
    (List.replicate 32 0) rfl⟩

/-- C8 amended: `getKeyId` equals the supplied override only when a private
key is also supplied and the override is non-empty; in every other case —
including an override passed without a private key, which the constructor
ignores, an empty-string override, and an empty private-key string, both
falsy in JS — it is the base58 encoding of the key pair's public key
bytes. -/
theorem keyId_derivation (s k : String) (fresh : SignKeyPair) (sk : List Nat)
    (hs : ¬ s = ("")) (hk : ¬ k = (""))
    (hdec : bs58decodeE s = Except.ok sk) (hlen : sk.length = 64) :
    (mkTAPSignerE (some s) (some k) fresh).map TAPSigner.getKeyId = Except.ok k ∧
    (mkTAPSignerE (some s) none fresh).map TAPSigner.getKeyId =
      Except.ok (bs58encode (sk.drop 32)) ∧
    (mkTAPSignerE none (some k) fresh).map TAPSigner.getKeyId =
      Except.ok (bs58encode fresh.publicKey) ∧
    (mkTAPSignerE none none fresh).map TAPSigner.getKeyId =
      Except.ok (bs58encode fresh.publicKey) ∧
    (mkTAPSignerE (some s) (some ("")) fresh).map TAPSigner.getKeyId =
      Except.ok (bs58encode (sk.drop 32)) ∧
    (mkTAPSignerE (some ("")) (some k) fresh).map TAPSigner.getKeyId =
      Except.ok (bs58encode fresh.publicKey) := by
  have hkp : naclKeyPairFromSecretKeyE sk = Except.ok ⟨sk.drop 32, sk⟩ := by
    unfold naclKeyPairFromSecretKeyE
    rw [if_pos hlen]
  have hms : mkTAPSignerE (some s) (some k) fresh =
      (if s = ("") then
        Except.ok { keyPair := fresh, keyId := bs58encode fresh.publicKey }
      else do
        let privateKey ← bs58decodeE s
        let kp ← naclKeyPairFromSecretKeyE privateKey
        let kid : String := if k = ("") then bs58encode kp.publicKey else k
        Except.ok { keyPair := kp, keyId := kid }) := rfl
  have hmn : mkTAPSignerE (some s) none fresh =
      (if s = ("") then
        Except.ok { keyPair := fresh, keyId := bs58encode fresh.publicKey }
      else do
        let privateKey ← bs58decodeE s
        let kp ← naclKeyPairFromSecretKeyE privateKey
        Except.ok { keyPair := kp, keyId := bs58encode kp.publicKey }) := rfl
  have hme : mkTAPSignerE (some s) (some ("")) fresh =
      (if s = ("") then
        Except.ok { keyPair := fresh, keyId := bs58encode fresh.publicKey }
      else do
        let privateKey ← bs58decodeE s
        let kp ← naclKeyPairFromSecretKeyE privateKey
        let kid : String :=
          if ("") = ("") then bs58encode kp.publicKey else ("")
        Except.ok { keyPair := kp, keyId := kid }) := rfl
  refine ⟨?_, ?_, rfl, rfl, ?_, rfl⟩
  · rw [hms, if_neg hs, hdec, exceptBind_ok, hkp, exceptBind_ok, if_neg hk]
    rfl
  · rw [hmn, if_neg hs, hdec, exceptBind_ok, hkp, exceptBind_ok]
    rfl
  · rw [hme, if_neg hs, hdec, exceptBind_ok, hkp, exceptBind_ok]
    rfl

/-- C8 counterexample: a keyId override supplied without a private key is
ignored — the constructed signer reports the base58 public key instead. -/
theorem keyId_override_ignored_cex :
    (mkTAPSignerE none (some ("custom")) pairA).map TAPSigner.getKeyId =
      Except.ok (bs58encode pairA.publicKey) ∧
    ¬ bs58encode pairA.publicKey = ("custom") := ⟨rfl, by decide⟩

/-- C8 witness: the constructor cases at a concrete key and override,
including the empty-string override falling back to the base58 public key. -/
theorem keyId_derivation_witness :
    ¬ ("1111111111111111111111111111111111111111111111111111111111111111") =
      ("") ∧
    ¬ ("custom") = ("") ∧
    bs58decodeE ("1111111111111111111111111111111111111111111111111111111111111111") =
      Except.ok (List.replicate 64 0) ∧
    (List.replicate 64 0).length = 64 ∧
    (mkTAPSignerE
      (some ("1111111111111111111111111111111111111111111111111111111111111111"))
      (some ("custom")) pairA).map TAPSigner.getKeyId = Except.ok ("custom") ∧
    (mkTAPSignerE
      (some ("1111111111111111111111111111111111111111111111111111111111111111"))
      (some ("")) pairA).map TAPSigner.getKeyId =
      Except.ok (bs58encode ((List.replicate 64 0).drop 32)) :=
  ⟨by decide, by decide, rfl, by decide,
   (keyId_derivation ("1111111111111111111111111111111111111111111111111111111111111111")
     ("custom") pairA (List.replicate 64 0) (by decide) (by decide) rfl
     (by decide)).1,
   (keyId_derivation ("1111111111111111111111111111111111111111111111111111111111111111")
     ("custom") pairA (List.replicate 64 0) (by decide) (by decide) rfl
     (by decide)).2.2.2.2.1⟩
